import Mathlib

/-!
Verification of the elevator simulation (`elevator.py`).

The Python classes `Passenger` and `Elevator` and the driver functions
`generate_passengers` / `simulate_elevator_usage` are shallowly embedded as
pure Lean functions on explicit state records.  Python exceptions are
modelled with `Except String`; the driver's unbounded `while` loop is
modelled with an explicit fuel parameter (`none` = fuel exhausted).
Python's `random.randint` / `random.choice` draws are modelled by passing
the drawn `(start_floor, target_floor)` pairs as an input list, and the
process-global `Passenger.population` id counter is modelled by threading
an explicit id counter through passenger generation.

List indexing notes: `floor_population` is created with length
`max_floor` and every operation in the claims indexes it with a floor in
`[0, max_floor-1]`; the embedding uses `List.getD` / `List.set`, which
agree with Python indexing on that in-range region.  The event log, which
Python keeps as formatted strings and the tests scan by keyword, is kept
as a list of structured entries, one constructor per distinct message
shape produced by the source.
-/

inductive Direction where
  | idle
  | up
  | down
deriving DecidableEq, Repr

/-- Value of the `Direction` enum member, as in `Direction(Enum)`:
`IDLE = 0`, `UP = 1`, `DOWN = -1`. -/
def Direction.value : Direction → Int
  | .idle => 0
  | .up => 1
  | .down => -1

/-- State of a `Passenger` object (trip intent plus mutable progress flags). -/
structure Passenger where
  id : Nat
  start_floor : Nat
  target_floor : Nat
  direction : Direction
  finished : Bool
  in_elevator : Bool
  elevator_spot : Bool
deriving DecidableEq, Repr

/-- `Passenger.__init__` with explicit start/target (the random draws are
supplied by the caller; Python draws them in `[0, floors-1]` with
`start != target`).  Raises `ValueError` when `floors < 2`; performs no
other validation.  `pid` models the global `Passenger.population` counter. -/
def Passenger.make (floors pid start target : Nat) : Except String Passenger :=
  if floors < 2 then .error "Floors count must be more than 1"
  else .ok
    { id := pid
      start_floor := start
      target_floor := target
      direction := if start < target then .up else .down
      finished := false
      in_elevator := false
      elevator_spot := false }

/-- `Passenger.arrived(floor)`. -/
def Passenger.arrived (p : Passenger) (floor : Int) : Bool :=
  floor == (p.target_floor : Int)

/-- `Passenger.waiting()`. -/
def Passenger.waiting (p : Passenger) : Bool :=
  !p.in_elevator && !p.finished

/-- Structured counterpart of the log strings appended by `add_to_log`,
one constructor per message shape in the source. -/
inductive LogEntry where
  | openedDoors
  | closedDoors
  | fullWait (pid : Nat)
  | entered (start target : Nat) (floor : Int)
  | exited (start target : Nat) (floor : Int)
  | moving (dir : Direction) (floor : Int)
  | allArrived
deriving DecidableEq, Repr

/-- State of an `Elevator` object. -/
structure Elevator where
  max_floor : Nat
  capacity : Nat
  elevator_population : List Passenger
  floor_population : List Int
  floor : Int
  doors_opened : Bool
  direction : Direction
  target_floor : Int
  log : List LogEntry
deriving DecidableEq, Repr

/-- `Elevator.__init__(max_floor, capacity=6)`: note that, unlike
`Passenger.__init__`, it performs no validation of `max_floor`. -/
def Elevator.init (max_floor capacity : Nat) : Elevator :=
  { max_floor := max_floor
    capacity := capacity
    elevator_population := []
    floor_population := List.replicate max_floor 0
    floor := 0
    doors_opened := false
    direction := .idle
    target_floor := 0
    log := [] }

/-- `Elevator.is_full` property: `len(self.elevator_population) == self.capacity`. -/
def Elevator.is_full (e : Elevator) : Bool :=
  e.elevator_population.length == e.capacity

/-- `Elevator.open_doors`. -/
def Elevator.open_doors (e : Elevator) : Elevator :=
  if e.doors_opened then e
  else { e with doors_opened := true, log := e.log ++ [.openedDoors] }

/-- `Elevator.close_doors`. -/
def Elevator.close_doors (e : Elevator) : Elevator :=
  if e.doors_opened then { e with doors_opened := false, log := e.log ++ [.closedDoors] }
  else e

/-- `Elevator.call_elevator(floor)`: `self.floor_population[floor] += 1`. -/
def Elevator.call_elevator (e : Elevator) (floor : Nat) : Elevator :=
  { e with floor_population :=
      e.floor_population.set floor (e.floor_population.getD floor 0 + 1) }

/-- `Elevator.onboard(passenger)`.  Returns the updated elevator together
with the (possibly updated) passenger; Python mutates both in place. -/
def Elevator.onboard (e : Elevator) (p : Passenger) : Elevator × Passenger :=
  if (p.start_floor : Int) ≠ e.floor then (e, p)
  else if e.is_full then
    ({ e with log := e.log ++ [.fullWait p.id] }, p)
  else if e.direction = p.direction ∨ e.floor = 0 ∨ e.floor = (e.max_floor : Int) - 1
      ∨ e.floor = e.target_floor then
    let e1 := e.open_doors
    let p1 := { p with in_elevator := true }
    ({ e1 with
        elevator_population := e1.elevator_population ++ [p1]
        floor_population := e1.floor_population.set p.start_floor
          (e1.floor_population.getD p.start_floor 0 - 1)
        log := e1.log ++ [.entered p.start_floor p.target_floor e.floor] }, p1)
  else (e, p)

/-- Python `list.remove(passenger)`: removes the first element identical to
`passenger` (object identity, modelled by the unique id). -/
def eraseById : List Passenger → Nat → List Passenger
  | [], _ => []
  | q :: rest, i => if q.id = i then rest else q :: eraseById rest i

/-- Outcome of `Elevator.remove(passenger)`: `ok` for a normal return,
`missing` for the uncaught `ValueError` raised by `list.remove` when the
passenger is not in the car.  Both carry the object states at that point,
since Python's mutations made before the raise persist. -/
inductive RemoveResult where
  | ok (e : Elevator) (p : Passenger)
  | missing (e : Elevator) (p : Passenger)
deriving DecidableEq, Repr

/-- `Elevator.remove(passenger)`: doors are opened and the passenger flags
are set before `list.remove` runs, so on the `missing` path those
mutations have already happened and no "exited" entry is logged. -/
def Elevator.removePassenger (e : Elevator) (p : Passenger) : RemoveResult :=
  if (p.target_floor : Int) ≠ e.floor then .ok e p
  else
    let e1 := e.open_doors
    let p1 := { p with in_elevator := false, finished := true }
    if e1.elevator_population.any (fun q => q.id == p.id) then
      .ok { e1 with
              elevator_population := eraseById e1.elevator_population p.id
              log := e1.log ++ [.exited p.start_floor p.target_floor e.floor] } p1
    else .missing e1 p1

/-- `Elevator.get_elevator_buttons()`. -/
def Elevator.get_elevator_buttons (e : Elevator) : List Bool :=
  e.elevator_population.foldl (fun bs p => bs.set p.target_floor true)
    (List.replicate e.max_floor false)

/-- The list `floors_people_want_to_go_to` built at the start of
`Elevator.move`: pressed in-car buttons followed by floors with a nonzero
(truthy) waiting-call counter. -/
def Elevator.demandFloors (e : Elevator) : List Nat :=
  ((List.range e.max_floor).filter (fun i => e.get_elevator_buttons.getD i false))
    ++ ((List.range e.max_floor).filter (fun f => e.floor_population.getD f 0 ≠ 0))

/-- `max(floors_people_want_to_go_to)` (meaningful when demand is nonempty). -/
def Elevator.demandHi (e : Elevator) : Nat :=
  e.demandFloors.foldl Nat.max 0

/-- `min(floors_people_want_to_go_to)` (meaningful when demand is nonempty). -/
def Elevator.demandLo (e : Elevator) : Nat :=
  e.demandFloors.foldl Nat.min e.demandHi

/-- The direction/target recomputation block of `Elevator.move`: returns
the pair (new `target_floor`, new `direction`); in the branches that do
not fire, both keep their current values. -/
def Elevator.scanTarget (e : Elevator) : Int × Direction :=
  if e.direction = .idle then
    ((e.demandHi : Int), if (e.demandHi : Int) > e.floor then .up else .down)
  else if e.direction = .up then
    (if (e.demandHi : Int) ≤ e.floor then ((e.demandLo : Int), .down)
     else (e.target_floor, .up))
  else
    (if e.floor ≤ (e.demandLo : Int) then ((e.demandHi : Int), .up)
     else (e.target_floor, .down))

/-- `Elevator.move()`.  Raises `ElevatorError` when no button is pressed
and no call is waiting, or when the (re)computed target floor is out of
bounds; otherwise closes the doors and moves one floor in the current
direction.  (The interpolated numbers of the second message are elided.) -/
def Elevator.move (e : Elevator) : Except String Elevator :=
  if e.demandFloors.isEmpty then
    .error "Elevator is moving, but no buttons pressed"
  else
    let tgt := e.scanTarget.1
    let dir := e.scanTarget.2
    if tgt ≤ -1 ∨ (e.max_floor : Int) ≤ tgt then
      .error "Elevator is outside of bounds"
    else
      let e2 := Elevator.close_doors { e with target_floor := tgt, direction := dir }
      .ok { e2 with
              floor := e2.floor + dir.value
              log := e2.log ++ [.moving dir (e2.floor + dir.value)] }

/-- `sum(elevator.floor_population) + len(elevator.elevator_population)`,
the quantity tested by the driver loop. -/
def Elevator.pendingTotal (e : Elevator) : Int :=
  e.floor_population.sum + e.elevator_population.length

/-- One pass of the driver's `for passenger in total_population` body:
exit arrived in-car passengers, then board waiting ones.  An uncaught
`ValueError` from `Elevator.remove` aborts the whole run. -/
def tickPassengers : Elevator → List Passenger → Except String (Elevator × List Passenger)
  | e, [] => .ok (e, [])
  | e, p :: rest =>
    match (if p.in_elevator && p.arrived e.floor then
            match e.removePassenger p with
            | .ok e1 p1 => Except.ok (e1, p1)
            | .missing _ _ => Except.error "list.remove(x): x not in list"
          else Except.ok (e, p) : Except String (Elevator × Passenger)) with
    | .error msg => .error msg
    | .ok (e1, p1) =>
      let ep := if p1.waiting then e1.onboard p1 else (e1, p1)
      match tickPassengers ep.1 rest with
      | .error msg => .error msg
      | .ok (e3, rest') => .ok (e3, ep.2 :: rest')

/-- The driver's `while` loop, with fuel bounding the number of
iterations (`none` = fuel exhausted before the loop exited). -/
def runLoop : Nat → Elevator → List Passenger → Option (Except String Elevator)
  | fuel, e, ps =>
    if e.pendingTotal ≤ 0 then some (.ok e)
    else
      match fuel with
      | 0 => none
      | fuel' + 1 =>
        match tickPassengers e ps with
        | .error msg => some (.error msg)
        | .ok (e1, ps1) =>
          if e1.pendingTotal = 0 then
            some (.ok { e1.close_doors with direction := .idle })
          else
            match e1.move with
            | .error msg => some (.error msg)
            | .ok e2 => runLoop fuel' e2 ps1

/-- `generate_passengers(num_people, elevator)` with the random draws
supplied as `draws` (so `num_people = draws.length`) and the global id
counter threaded as `pid`. -/
def generatePassengers : List (Nat × Nat) → Nat → Elevator →
    Except String (List Passenger × Elevator)
  | [], _, e => .ok ([], e)
  | (s, t) :: rest, pid, e =>
    match Passenger.make e.max_floor pid s t with
    | .error msg => .error msg
    | .ok p =>
      match generatePassengers rest (pid + 1) (e.call_elevator p.start_floor) with
      | .error msg => .error msg
      | .ok (ps, e2) => .ok (p :: ps, e2)

/-- `simulate_elevator_usage(num_people, num_floors, capacity)` with the
random draws passed in and the loop bounded by `fuel`. -/
def simulate_elevator_usage (draws : List (Nat × Nat)) (num_floors capacity fuel : Nat) :
    Option (Except String Elevator) :=
  match generatePassengers draws 0 (Elevator.init num_floors capacity) with
  | .error msg => some (.error msg)
  | .ok (ps, e) =>
    match runLoop fuel e ps with
    | none => none
    | some (.error msg) => some (.error msg)
    | some (.ok e1) => some (.ok { e1 with log := e1.log ++ [.allArrived] })

/-- Recognizer for "entered" log lines. -/
def isEnteredL : LogEntry → Bool
  | .entered _ _ _ => true
  | _ => false

/-- Recognizer for "exited" log lines. -/
def isExitedL : LogEntry → Bool
  | .exited _ _ _ => true
  | _ => false

/-- Recognizer for "Opened doors" log lines. -/
def isOpenedL : LogEntry → Bool
  | .openedDoors => true
  | _ => false

/-- Recognizer for "Closed doors" log lines. -/
def isClosedL : LogEntry → Bool
  | .closedDoors => true
  | _ => false

/-- Number of passengers in `ps` that are waiting at floor `f`
(`waiting()` true and `start_floor = f`). -/
def waitingAt (ps : List Passenger) (f : Nat) : Nat :=
  ps.countP (fun p => p.waiting && (p.start_floor == f))

/-- The two log-balance invariants maintained by the simulation driver:
the "entered" count exceeds the "exited" count by exactly the number of
passengers currently in the car, and the "Opened doors" count exceeds
the "Closed doors" count by exactly one when the doors are open. -/
def SimCounts (e : Elevator) : Prop :=
  e.log.countP isEnteredL = e.log.countP isExitedL + e.elevator_population.length
  ∧ e.log.countP isOpenedL = e.log.countP isClosedL + (if e.doors_opened then 1 else 0)

/-- The waiting-call counters record exactly the waiting passengers of
`ps` at each floor, on top of a fixed offset `extra` (used to account for
the already-processed prefix while iterating over the passenger list). -/
def PopMatch (e : Elevator) (extra : Nat → Nat) (ps : List Passenger) : Prop :=
  ∀ f : Nat, e.floor_population.getD f 0 = ((extra f + waitingAt ps f : Nat) : Int)

/-- All start floors of `ps` are valid for a building with `m` floors. -/
def StartsValid (m : Nat) (ps : List Passenger) : Prop :=
  ∀ p ∈ ps, p.start_floor < m

/-- A public operation on the elevator, for stating trace-level
invariants about the waiting-call counters. -/
inductive ElevatorOp where
  | registerCall (f : Nat)
  | boardOp (p : Passenger)
  | exitOp (p : Passenger)
  | stepOp
deriving DecidableEq, Repr

/-- The floors mentioned by an operation are valid for a building with
`m` floors (the region where the list embedding matches Python indexing). -/
def ElevatorOp.floorsValid (m : Nat) : ElevatorOp → Bool
  | .registerCall f => decide (f < m)
  | .boardOp p => decide (p.start_floor < m)
  | _ => true

/-- Effect of one public operation on the elevator state.  `exitOp` keeps
the elevator state reached at the raise point when the passenger is
missing, and `stepOp` leaves the state unchanged when `move` raises
(`move` raises before performing any mutation). -/
def applyOp (e : Elevator) : ElevatorOp → Elevator
  | .registerCall f => e.call_elevator f
  | .boardOp p => (e.onboard p).1
  | .exitOp p =>
    match e.removePassenger p with
    | .ok e1 _ => e1
    | .missing e1 _ => e1
  | .stepOp =>
    match e.move with
    | .ok e1 => e1
    | .error _ => e

/-- Run a sequence of public operations from a starting state. -/
def runOps (e : Elevator) (ops : List ElevatorOp) : Elevator :=
  ops.foldl applyOp e

/-- The guard under which `Elevator.onboard` actually boards the
passenger (same floor, car not at capacity, and a direction/terminal/
target relaxation holds). -/
def boardSucceeds (e : Elevator) (p : Passenger) : Bool :=
  decide ((p.start_floor : Int) = e.floor) && !e.is_full &&
    (decide (e.direction = p.direction) || decide (e.floor = 0) ||
     decide (e.floor = (e.max_floor : Int) - 1) || decide (e.floor = e.target_floor))

/-- Number of operations in `ops` that successfully board a passenger
whose start floor is `f`, starting from state `e`. -/
def succBoardsAt : Elevator → List ElevatorOp → Nat → Nat
  | _, [], _ => 0
  | e, op :: rest, f =>
    (match op with
     | .boardOp p => if boardSucceeds e p && (p.start_floor == f) then 1 else 0
     | _ => 0) + succBoardsAt (applyOp e op) rest f

/-- Number of `registerCall f` operations in `ops`. -/
def regsAt (ops : List ElevatorOp) (f : Nat) : Nat :=
  ops.countP (fun op =>
    match op with
    | .registerCall g => g == f
    | _ => false)

/-- Concrete state for the claim C3 counterexample: car at floor 3 going
UP with (stale) target 3, calls waiting at floors 3 and 5. -/
def ex3 : Elevator :=
  { max_floor := 6, capacity := 6, elevator_population := [],
    floor_population := [0, 0, 0, 1, 0, 1], floor := 3, doors_opened := false,
    direction := .up, target_floor := 3, log := [] }

/-- Concrete state for the claim C5 counterexample: empty car (so every
onboard target is vacuously in bounds), one call waiting at floor 4, but
a stale out-of-bounds `target_floor`. -/
def ex5 : Elevator :=
  { max_floor := 5, capacity := 6, elevator_population := [],
    floor_population := [0, 0, 0, 0, 1], floor := 0, doors_opened := false,
    direction := .up, target_floor := 7, log := [] }

/-- Zero-capacity elevator: `is_full` holds with an empty car. -/
def fullCar : Elevator := Elevator.init 2 0

/-- Passenger waiting on floor 1 (not the zero-capacity car's floor). -/
def p6cex : Passenger :=
  { id := 0, start_floor := 1, target_floor := 0, direction := .down,
    finished := false, in_elevator := false, elevator_spot := false }

/-- Passenger waiting on floor 0, where the zero-capacity car sits. -/
def p6wit : Passenger :=
  { id := 0, start_floor := 0, target_floor := 1, direction := .up,
    finished := false, in_elevator := false, elevator_spot := false }

/-- Passenger whose target is the fresh elevator's floor 0 but who is not
in the (empty) car. -/
def p9wit : Passenger :=
  { id := 0, start_floor := 2, target_floor := 0, direction := .down,
    finished := false, in_elevator := false, elevator_spot := false }

/-- Passenger used for the claim C2 witness: boards a fresh elevator at
floor 0. -/
def p2wit : Passenger :=
  { id := 0, start_floor := 0, target_floor := 1, direction := .up,
    finished := false, in_elevator := false, elevator_spot := false }

/-- Passenger used for the claim C10 instances: boards at floor 0. -/
def p10wit : Passenger :=
  { id := 0, start_floor := 0, target_floor := 1, direction := .up,
    finished := false, in_elevator := false, elevator_spot := false }

/-- In-bounds, non-degenerate state for the claim C1 witness: fresh
two-floor building with one call waiting upstairs. -/
def e1wit : Elevator :=
  { max_floor := 2, capacity := 6, elevator_population := [],
    floor_population := [0, 1], floor := 0, doors_opened := false,
    direction := .idle, target_floor := 0, log := [] }

/-- The state `e1wit.move` reaches: one floor up, heading to floor 1. -/
def e1wit' : Elevator :=
  { max_floor := 2, capacity := 6, elevator_population := [],
    floor_population := [0, 1], floor := 1, doors_opened := false,
    direction := .up, target_floor := 1, log := [.moving .up 1] }

/-- State for the claim C3 witness: same shape as `e1wit`. -/
def e3wit : Elevator :=
  { max_floor := 2, capacity := 6, elevator_population := [],
    floor_population := [0, 1], floor := 0, doors_opened := false,
    direction := .idle, target_floor := 0, log := [] }

/-- The state `e3wit.move` reaches. -/
def e3wit' : Elevator :=
  { max_floor := 2, capacity := 6, elevator_population := [],
    floor_population := [0, 1], floor := 1, doors_opened := false,
    direction := .up, target_floor := 1, log := [.moving .up 1] }

/-- Final elevator of the concrete one-passenger run used as the claim C7
witness (`simulate_elevator_usage [(0,1)] 2 6 10`). -/
def e7wit : Elevator :=
  { max_floor := 2, capacity := 6, elevator_population := [],
    floor_population := [0, 0], floor := 1, doors_opened := false,
    direction := .idle, target_floor := 1,
    log := [.openedDoors, .entered 0 1 0, .closedDoors, .moving .up 1,
            .openedDoors, .exited 0 1 1, .closedDoors, .allArrived] }

theorem open_doors_population (e : Elevator) :
    (e.open_doors).elevator_population = e.elevator_population := by
  unfold Elevator.open_doors; split <;> rfl

theorem open_doors_doors (e : Elevator) : (e.open_doors).doors_opened = true := by
  unfold Elevator.open_doors; split
  · assumption
  · rfl

/-- Claim C1 counterexample: from the initial state of a two-floor
building, the public sequence `register_call(0); step()` drives the
elevator to floor `-1`, outside `[0, max_floor-1] = [0, 1]`, and no
error is raised.  The bounds check in `move` inspects only
`target_floor` (here 0, in bounds), never the new `floor`. -/
theorem claim1_counterexample :
    Except.map Elevator.floor (((Elevator.init 2 6).call_elevator 0).move) = .ok (-1)
    ∧ (Elevator.init 2 6).max_floor = 2 := by
  constructor <;> rfl

/-- Claim C3 counterexample: in state `ex3` the demand set `{3, 5}` is
nonempty and no reversal fires (UP with floor 3 < highest 5), so the
recomputed direction/target are the unchanged UP/3; `step()` moves the
car from floor 3 (distance 0 from the recomputed target 3) to floor 4
(distance 1), i.e. one floor farther from, not closer to, the
recomputed `target_floor`. -/
theorem claim3_counterexample :
    Except.map (fun e => (e.floor, e.target_floor)) ex3.move = .ok ((4 : Int), (3 : Int))
    ∧ ex3.demandFloors = [3, 5] ∧ ex3.floor = 3 ∧ ex3.target_floor = 3 := by
  refine ⟨?_, ?_, rfl, rfl⟩ <;> rfl

/-- Claim C4 counterexample: with `num_people = 0` and one floor,
`simulate` returns normally (the `Elevator` constructor performs no
floors validation and no `Passenger` is ever constructed), refuting
"simulate(num_people, 1, capacity) raises ValidationError for every
num_people >= 0". -/
theorem claim4_counterexample :
    simulate_elevator_usage [] 1 6 0
      = some (.ok { Elevator.init 1 6 with log := [LogEntry.allArrived] }) := by
  rfl

/-- Claim C5 counterexample: state `ex5` has an empty car (every onboard
target is vacuously within bounds) and nonempty demand `[4]`, yet
`step()` raises the "target out of bounds" error, because the continuing
UP leg keeps the stale `target_floor = 7`.  This refutes "step() raises
if and only if the demand set is empty" as quantified over all states
with in-bounds onboard targets. -/
theorem claim5_counterexample :
    ex5.move = .error "Elevator is outside of bounds"
    ∧ ex5.demandFloors = [4] ∧ ex5.elevator_population = [] := by
  refine ⟨?_, ?_, rfl⟩ <;> rfl

/-- Claim C6 counterexample: `fullCar` is at capacity (capacity 0, empty
car), yet `board` of a passenger standing on a different floor returns
with no log entry at all — the wrong-floor no-op precedes the capacity
check — refuting "every board() call made while the car is full produces
exactly one waiting log entry". -/
theorem claim6_counterexample :
    fullCar.is_full = true ∧ fullCar.onboard p6cex = (fullCar, p6cex) := by
  constructor <;> rfl

/-- Claim C4 (amended): for `floors < 2`, constructing a `Passenger`
raises `ValueError("Floors count must be more than 1")`, and
`simulate(num_people, floors, capacity)` raises that same error iff
`num_people >= 1` (the error surfaces from the first `Passenger`
construction); the `Elevator` constructor performs no floors validation
and succeeds for every `max_floor`. -/
theorem claim4_amended :
    (∀ floors pid s t, floors < 2 →
        Passenger.make floors pid s t = .error "Floors count must be more than 1")
    ∧ (∀ s t draws floors cap fuel, floors < 2 →
        simulate_elevator_usage ((s, t) :: draws) floors cap fuel
          = some (.error "Floors count must be more than 1"))
    ∧ (∀ floors cap, (Elevator.init floors cap).max_floor = floors) := by
  refine ⟨?_, ?_, ?_⟩
  · intro floors pid s t h
    simp [Passenger.make, h]
  · intro s t draws floors cap fuel h
    have hmk : Passenger.make (Elevator.init floors cap).max_floor 0 s t
        = .error "Floors count must be more than 1" := by
      simp [Passenger.make, Elevator.init, h]
    unfold simulate_elevator_usage generatePassengers
    rw [hmk]
  · intro floors cap
    rfl

theorem claim4_witness :
    Passenger.make 1 0 0 1 = .error "Floors count must be more than 1"
    ∧ simulate_elevator_usage [(0, 1)] 1 6 0 = some (.error "Floors count must be more than 1") :=
  ⟨claim4_amended.1 1 0 0 1 (by decide), claim4_amended.2.1 0 1 [] 1 6 0 (by decide)⟩

/-- Claim C6 (amended): once `onboard.size() == capacity`, a `board(p)`
call by a passenger whose `start_floor` equals the current floor leaves
the state unchanged except for appending exactly one "waiting" log
entry; a `board(p)` call by a passenger on a different floor is a silent
no-op (no log entry) even when the car is full. -/
theorem claim6_amended (e : Elevator) (p : Passenger)
    (hfloor : (p.start_floor : Int) = e.floor)
    (hfull : e.elevator_population.length = e.capacity) :
    e.onboard p = ({ e with log := e.log ++ [.fullWait p.id] }, p) := by
  simp [Elevator.onboard, hfloor, Elevator.is_full, hfull]

theorem claim6_witness :
    fullCar.onboard p6wit = ({ fullCar with log := fullCar.log ++ [.fullWait p6wit.id] }, p6wit) :=
  claim6_amended fullCar p6wit (by rfl) (by rfl)

/-- Claim C8: with zero passengers (empty draw list) and any valid floor
count, the simulation loop body never executes: the returned elevator is
the freshly constructed one with floor 0 and exactly one log entry, the
completion marker. -/
theorem claim8 (floors cap fuel : Nat) (h2 : 2 ≤ floors) :
    simulate_elevator_usage [] floors cap fuel
      = some (.ok { Elevator.init floors cap with log := [LogEntry.allArrived] }) := by
  have hp : (Elevator.init floors cap).pendingTotal = 0 := by
    simp [Elevator.pendingTotal, Elevator.init]
  have hloop : runLoop fuel (Elevator.init floors cap) [] = some (.ok (Elevator.init floors cap)) := by
    unfold runLoop
    simp [hp]
  unfold simulate_elevator_usage generatePassengers
  dsimp only
  rw [hloop]
  rfl

theorem claim8_witness :
    simulate_elevator_usage [] 2 6 0
      = some (.ok { Elevator.init 2 6 with log := [LogEntry.allArrived] }) :=
  claim8 2 6 0 (by decide)

/-- Claim C9: calling `remove(p)` when `p.target_floor` equals the
current floor but `p` is not in the car raises the uncaught `ValueError`
of `list.remove`, and only after the doors have been opened and
`p.in_elevator := false`, `p.finished := true` have been set — the state
mutations precede the exception (and no "exited" entry is logged). -/
theorem claim9 (e : Elevator) (p : Passenger)
    (ht : (p.target_floor : Int) = e.floor)
    (habs : e.elevator_population.any (fun q => q.id == p.id) = false) :
    e.removePassenger p
      = .missing e.open_doors { p with in_elevator := false, finished := true }
    ∧ (e.open_doors).doors_opened = true
    ∧ (e.open_doors).log.countP isExitedL = e.log.countP isExitedL := by
  refine ⟨?_, open_doors_doors e, ?_⟩
  · simp [Elevator.removePassenger, ht, open_doors_population, habs]
  · unfold Elevator.open_doors
    split
    · rfl
    · simp [isExitedL]

theorem claim9_witness :
    (Elevator.init 3 6).removePassenger p9wit
      = .missing (Elevator.init 3 6).open_doors { p9wit with in_elevator := false, finished := true }
    ∧ ((Elevator.init 3 6).open_doors).doors_opened = true
    ∧ ((Elevator.init 3 6).open_doors).log.countP isExitedL
        = (Elevator.init 3 6).log.countP isExitedL :=
  claim9 (Elevator.init 3 6) p9wit (by rfl) (by rfl)

theorem le_foldl_max (l : List Nat) (a : Nat) : a ≤ l.foldl Nat.max a := by
  induction l generalizing a with
  | nil => exact le_refl a
  | cons x xs ih => exact le_trans (Nat.le_max_left a x) (ih (Nat.max a x))

theorem mem_le_foldl_max (l : List Nat) : ∀ (a x : Nat), x ∈ l → x ≤ l.foldl Nat.max a := by
  induction l with
  | nil => intro a x hx; cases hx
  | cons y ys ih =>
    intro a x hx
    rcases List.mem_cons.mp hx with h | h
    · subst h
      exact le_trans (Nat.le_max_right a x) (le_foldl_max ys _)
    · exact ih (Nat.max a y) x h

theorem foldl_max_mem (l : List Nat) : ∀ (a : Nat),
    l.foldl Nat.max a = a ∨ l.foldl Nat.max a ∈ l := by
  induction l with
  | nil => intro a; exact Or.inl rfl
  | cons y ys ih =>
    intro a
    have hstep : (y :: ys).foldl Nat.max a = ys.foldl Nat.max (Nat.max a y) := rfl
    rcases ih (Nat.max a y) with h | h
    · rcases Nat.le_total a y with h2 | h2
      · refine Or.inr ?_
        rw [hstep, h]
        have h3 : Nat.max a y = y := Nat.max_eq_right h2
        rw [h3]
        exact List.mem_cons_self y ys
      · exact Or.inl (by rw [hstep, h]; exact Nat.max_eq_left h2)
    · exact Or.inr (by rw [hstep]; exact List.mem_cons_of_mem y h)

theorem foldl_min_le (l : List Nat) (a : Nat) : l.foldl Nat.min a ≤ a := by
  induction l generalizing a with
  | nil => exact le_refl a
  | cons x xs ih => exact le_trans (ih (Nat.min a x)) (Nat.min_le_left a x)

theorem foldl_min_le_mem (l : List Nat) : ∀ (a x : Nat), x ∈ l → l.foldl Nat.min a ≤ x := by
  induction l with
  | nil => intro a x hx; cases hx
  | cons y ys ih =>
    intro a x hx
    rcases List.mem_cons.mp hx with h | h
    · subst h
      exact le_trans (foldl_min_le ys _) (Nat.min_le_right a x)
    · exact ih (Nat.min a y) x h

theorem foldl_min_mem (l : List Nat) : ∀ (a : Nat),
    l.foldl Nat.min a = a ∨ l.foldl Nat.min a ∈ l := by
  induction l with
  | nil => intro a; exact Or.inl rfl
  | cons y ys ih =>
    intro a
    have hstep : (y :: ys).foldl Nat.min a = ys.foldl Nat.min (Nat.min a y) := rfl
    rcases ih (Nat.min a y) with h | h
    · rcases Nat.le_total a y with h2 | h2
      · exact Or.inl (by rw [hstep, h]; exact Nat.min_eq_left h2)
      · refine Or.inr ?_
        rw [hstep, h]
        have h3 : Nat.min a y = y := Nat.min_eq_right h2
        rw [h3]
        exact List.mem_cons_self y ys
    · exact Or.inr (by rw [hstep]; exact List.mem_cons_of_mem y h)

theorem demandFloors_lt (e : Elevator) {f : Nat} (hf : f ∈ e.demandFloors) :
    f < e.max_floor := by
  unfold Elevator.demandFloors at hf
  rcases List.mem_append.mp hf with h | h <;>
    exact List.mem_range.mp (List.mem_filter.mp h).1

theorem demandHi_ge (e : Elevator) {f : Nat} (hf : f ∈ e.demandFloors) :
    f ≤ e.demandHi :=
  mem_le_foldl_max e.demandFloors 0 f hf

theorem demandHi_mem (e : Elevator) (h : e.demandFloors ≠ []) :
    e.demandHi ∈ e.demandFloors := by
  rcases foldl_max_mem e.demandFloors 0 with h0 | hm
  · obtain ⟨x, hx⟩ := List.exists_mem_of_ne_nil e.demandFloors h
    have hxle : x ≤ e.demandHi := demandHi_ge e hx
    have hx0 : x = 0 := by
      unfold Elevator.demandHi at hxle
      omega
    have : e.demandHi = 0 := h0
    rw [this, ← hx0]
    exact hx
  · exact hm

theorem demandLo_le (e : Elevator) {f : Nat} (hf : f ∈ e.demandFloors) :
    e.demandLo ≤ f :=
  foldl_min_le_mem e.demandFloors e.demandHi f hf

theorem demandLo_mem (e : Elevator) (h : e.demandFloors ≠ []) :
    e.demandLo ∈ e.demandFloors := by
  rcases foldl_min_mem e.demandFloors e.demandHi with h0 | hm
  · have : e.demandLo = e.demandHi := h0
    rw [this]
    exact demandHi_mem e h
  · exact hm

theorem demandHi_lt (e : Elevator) (h : e.demandFloors ≠ []) :
    e.demandHi < e.max_floor :=
  demandFloors_lt e (demandHi_mem e h)

theorem demandLo_lt (e : Elevator) (h : e.demandFloors ≠ []) :
    e.demandLo < e.max_floor :=
  demandFloors_lt e (demandLo_mem e h)

theorem move_ok_fields (e e' : Elevator) (h : e.move = .ok e') :
    e'.floor = e.floor + (e.scanTarget.2).value
    ∧ e'.direction = e.scanTarget.2
    ∧ e'.target_floor = e.scanTarget.1
    ∧ e'.max_floor = e.max_floor
    ∧ e'.capacity = e.capacity
    ∧ e'.elevator_population = e.elevator_population
    ∧ e'.floor_population = e.floor_population
    ∧ e'.doors_opened = false
    ∧ e.demandFloors ≠ []
    ∧ -1 < e.scanTarget.1 ∧ e.scanTarget.1 < (e.max_floor : Int) := by
  unfold Elevator.move at h
  by_cases h1 : e.demandFloors.isEmpty
  · rw [if_pos h1] at h
    cases h
  · rw [if_neg h1] at h
    by_cases h2 : e.scanTarget.1 ≤ -1 ∨ (e.max_floor : Int) ≤ e.scanTarget.1
    · rw [if_pos h2] at h
      cases h
    · rw [if_neg h2] at h
      have hX := Except.ok.inj h
      rw [not_or] at h2
      subst hX
      unfold Elevator.close_doors
      by_cases hd : e.doors_opened <;>
        simp [hd, List.isEmpty_iff] at h1 ⊢ <;>
        exact ⟨h1, by omega, by omega⟩

theorem scanTarget_spec (e : Elevator) :
    (e.direction = .idle ∧ (e.demandHi : Int) > e.floor
        ∧ e.scanTarget = ((e.demandHi : Int), .up))
    ∨ (e.direction = .idle ∧ ¬ (e.demandHi : Int) > e.floor
        ∧ e.scanTarget = ((e.demandHi : Int), .down))
    ∨ (e.direction = .up ∧ (e.demandHi : Int) ≤ e.floor
        ∧ e.scanTarget = ((e.demandLo : Int), .down))
    ∨ (e.direction = .up ∧ ¬ (e.demandHi : Int) ≤ e.floor
        ∧ e.scanTarget = (e.target_floor, .up))
    ∨ (e.direction = .down ∧ e.floor ≤ (e.demandLo : Int)
        ∧ e.scanTarget = ((e.demandHi : Int), .up))
    ∨ (e.direction = .down ∧ ¬ e.floor ≤ (e.demandLo : Int)
        ∧ e.scanTarget = (e.target_floor, .down)) := by
  unfold Elevator.scanTarget
  rcases hd : e.direction with _ | _ | _ <;> simp [hd] <;> omega

theorem move_succeeds (e : Elevator) (hne : e.demandFloors ≠ [])
    (ht0 : 0 ≤ e.target_floor) (ht1 : e.target_floor ≤ (e.max_floor : Int) - 1) :
    ∃ e', e.move = .ok e' := by
  have hhi := demandHi_lt e hne
  have hlo := demandLo_lt e hne
  have hbnd : ¬ (e.scanTarget.1 ≤ -1 ∨ (e.max_floor : Int) ≤ e.scanTarget.1) := by
    rcases scanTarget_spec e with ⟨-, -, hs⟩ | ⟨-, -, hs⟩ | ⟨-, -, hs⟩ | ⟨-, -, hs⟩
        | ⟨-, -, hs⟩ | ⟨-, -, hs⟩ <;>
      rw [hs] <;> dsimp only <;> omega
  unfold Elevator.move
  rw [if_neg (by simpa [List.isEmpty_iff] using hne), if_neg hbnd]
  exact ⟨_, rfl⟩

/-- Claim C1 (amended): `step()` preserves `0 <= floor <= max_floor - 1`
from any in-bounds state provided it is not invoked in one of the two
degenerate boundary configurations (all demand at floor 0 with the car at
floor 0 and direction IDLE or UP; or all demand at floor `max_floor - 1`
with the car there and direction DOWN).  The claim's stronger statement —
preservation under every public-operation sequence — is refuted by
`claim1_counterexample`. -/
theorem claim1_amended (e e' : Elevator)
    (hge : 0 ≤ e.floor) (hle : e.floor ≤ (e.max_floor : Int) - 1)
    (hb1 : ¬ (e.floor = 0 ∧ e.direction ≠ Direction.down ∧ e.demandHi = 0))
    (hb2 : ¬ (e.direction = Direction.down ∧ e.floor = (e.max_floor : Int) - 1
        ∧ (e.demandLo : Int) = (e.max_floor : Int) - 1))
    (hok : e.move = .ok e') :
    0 ≤ e'.floor ∧ e'.floor ≤ (e.max_floor : Int) - 1 := by
  obtain ⟨hfl, hdir, -, -, -, -, -, -, hne, -, -⟩ := move_ok_fields e e' hok
  have hhi : e.demandHi < e.max_floor := demandHi_lt e hne
  have hlo : e.demandLo < e.max_floor := demandLo_lt e hne
  rw [hfl]
  rcases scanTarget_spec e with ⟨hd, hc, hs⟩ | ⟨hd, hc, hs⟩ | ⟨hd, hc, hs⟩ | ⟨hd, hc, hs⟩
      | ⟨hd, hc, hs⟩ | ⟨hd, hc, hs⟩ <;> rw [hs] <;> dsimp only [Direction.value]
  · omega
  · have hz : ¬ (e.floor = 0 ∧ e.demandHi = 0) := fun hzz => hb1 ⟨hzz.1, by simp [hd], hzz.2⟩
    omega
  · have hz : ¬ (e.floor = 0 ∧ e.demandHi = 0) := fun hzz => hb1 ⟨hzz.1, by simp [hd], hzz.2⟩
    omega
  · omega
  · have hz : ¬ (e.floor = (e.max_floor : Int) - 1
        ∧ (e.demandLo : Int) = (e.max_floor : Int) - 1) :=
      fun hzz => hb2 ⟨hd, hzz.1, hzz.2⟩
    omega
  · omega

theorem claim1_witness :
    0 ≤ e1wit'.floor ∧ e1wit'.floor ≤ (e1wit.max_floor : Int) - 1 :=
  claim1_amended e1wit e1wit' (by decide) (by decide) (by decide) (by decide) (by rfl)

/-- Claim C3 (amended): with nonempty demand and an in-bounds current
`target_floor`, `step()` succeeds and changes the floor by exactly one
unit, the unit being the recomputed direction's delta; whenever some
demand floor differs from the current floor, the recomputed direction
points strictly toward the corresponding scan extremum (the highest
demand floor for UP, the lowest for DOWN), so the move brings the car one
floor closer to that extremum.  The car does NOT always move closer to
the recomputed `target_floor`: on a continuing leg the target is stale
(see `claim3_counterexample`). -/
theorem claim3_amended (e : Elevator)
    (ht0 : 0 ≤ e.target_floor) (ht1 : e.target_floor ≤ (e.max_floor : Int) - 1)
    (hne : e.demandFloors ≠ []) :
    ∃ e', e.move = .ok e'
      ∧ e'.direction ≠ Direction.idle
      ∧ e'.floor = e.floor + e'.direction.value
      ∧ ((e'.direction = Direction.up ∧ (∃ f ∈ e.demandFloors, (f : Int) ≠ e.floor)) →
          e.floor < (e.demandHi : Int))
      ∧ ((e'.direction = Direction.down ∧ (∃ f ∈ e.demandFloors, (f : Int) ≠ e.floor)) →
          (e.demandLo : Int) < e.floor) := by
  obtain ⟨e', hok⟩ := move_succeeds e hne ht0 ht1
  obtain ⟨hfl, hdir, -, -, -, -, -, -, -, -, -⟩ := move_ok_fields e e' hok
  have hstep : e'.floor = e.floor + e'.direction.value := by rw [hfl, hdir]
  rcases scanTarget_spec e with ⟨hd, hc, hs⟩ | ⟨hd, hc, hs⟩ | ⟨hd, hc, hs⟩ | ⟨hd, hc, hs⟩
      | ⟨hd, hc, hs⟩ | ⟨hd, hc, hs⟩
  · have hdir' : e'.direction = Direction.up := by rw [hdir, hs]
    refine ⟨e', hok, by rw [hdir']; decide, hstep, fun _ => hc, fun hx => ?_⟩
    rw [hdir'] at hx
    exact absurd hx.1 (by decide)
  · have hdir' : e'.direction = Direction.down := by rw [hdir, hs]
    refine ⟨e', hok, by rw [hdir']; decide, hstep, fun hx => ?_, fun hx => ?_⟩
    · rw [hdir'] at hx
      exact absurd hx.1 (by decide)
    · obtain ⟨-, f, hmem, hfne⟩ := hx
      have h1 := demandLo_le e hmem
      have h2 := demandHi_ge e hmem
      omega
  · have hdir' : e'.direction = Direction.down := by rw [hdir, hs]
    refine ⟨e', hok, by rw [hdir']; decide, hstep, fun hx => ?_, fun hx => ?_⟩
    · rw [hdir'] at hx
      exact absurd hx.1 (by decide)
    · obtain ⟨-, f, hmem, hfne⟩ := hx
      have h1 := demandLo_le e hmem
      have h2 := demandHi_ge e hmem
      omega
  · have hdir' : e'.direction = Direction.up := by rw [hdir, hs]
    refine ⟨e', hok, by rw [hdir']; decide, hstep, fun _ => by omega, fun hx => ?_⟩
    rw [hdir'] at hx
    exact absurd hx.1 (by decide)
  · have hdir' : e'.direction = Direction.up := by rw [hdir, hs]
    refine ⟨e', hok, by rw [hdir']; decide, hstep, fun hx => ?_, fun hx => ?_⟩
    · obtain ⟨-, f, hmem, hfne⟩ := hx
      have h1 := demandLo_le e hmem
      have h2 := demandHi_ge e hmem
      omega
    · rw [hdir'] at hx
      exact absurd hx.1 (by decide)
  · have hdir' : e'.direction = Direction.down := by rw [hdir, hs]
    refine ⟨e', hok, by rw [hdir']; decide, hstep, fun hx => ?_, fun _ => by omega⟩
    rw [hdir'] at hx
    exact absurd hx.1 (by decide)

theorem claim3_witness :
    ∃ e', e3wit.move = .ok e'
      ∧ e'.direction ≠ Direction.idle
      ∧ e'.floor = e3wit.floor + e'.direction.value
      ∧ ((e'.direction = Direction.up ∧ (∃ f ∈ e3wit.demandFloors, (f : Int) ≠ e3wit.floor)) →
          e3wit.floor < (e3wit.demandHi : Int))
      ∧ ((e'.direction = Direction.down ∧ (∃ f ∈ e3wit.demandFloors, (f : Int) ≠ e3wit.floor)) →
          (e3wit.demandLo : Int) < e3wit.floor) :=
  claim3_amended e3wit (by decide) (by decide) (by decide)

/-- Claim C5 (amended): in every state whose onboard targets AND current
`target_floor` lie within `[0, max_floor-1]`, `step()` raises exactly
when the demand set is empty (with the "no buttons pressed" error, issued
before any state mutation), and succeeds otherwise — under the added
`target_floor` bound the "target out of bounds" branch is indeed
unreachable.  Without that bound the branch is reachable
(`claim5_counterexample`): a continuing leg keeps the stale target. -/
theorem claim5_amended (e : Elevator)
    (htv : ∀ p ∈ e.elevator_population, p.target_floor < e.max_floor)
    (ht0 : 0 ≤ e.target_floor) (ht1 : e.target_floor ≤ (e.max_floor : Int) - 1) :
    (e.demandFloors = [] → e.move = .error "Elevator is moving, but no buttons pressed")
    ∧ (e.demandFloors ≠ [] → ∃ e', e.move = .ok e') := by
  constructor
  · intro h
    unfold Elevator.move
    rw [if_pos (by simp [h])]
  · intro h
    exact move_succeeds e h ht0 ht1

theorem claim5_witness :
    (((Elevator.init 2 6).call_elevator 1).demandFloors = []
        → ((Elevator.init 2 6).call_elevator 1).move
            = .error "Elevator is moving, but no buttons pressed")
    ∧ (((Elevator.init 2 6).call_elevator 1).demandFloors ≠ []
        → ∃ e', ((Elevator.init 2 6).call_elevator 1).move = .ok e') :=
  claim5_amended ((Elevator.init 2 6).call_elevator 1) (by simp [Elevator.init, Elevator.call_elevator])
    (by decide) (by decide)

theorem getD_set_self (l : List Int) (i : Nat) (v : Int) (h : i < l.length) :
    (l.set i v).getD i 0 = v := by
  simp [List.getD, List.getElem?_set_self, h]

theorem getD_set_other (l : List Int) (i j : Nat) (v : Int) (h : i ≠ j) :
    (l.set i v).getD j 0 = l.getD j 0 := by
  simp [List.getD, List.getElem?_set_ne h]

theorem getD_replicate_zero (n f : Nat) : (List.replicate n (0 : Int)).getD f 0 = 0 := by
  simp [List.getD]

theorem open_doors_floor_population (e : Elevator) :
    (e.open_doors).floor_population = e.floor_population := by
  unfold Elevator.open_doors; split <;> rfl

theorem open_doors_max (e : Elevator) : (e.open_doors).max_floor = e.max_floor := by
  unfold Elevator.open_doors; split <;> rfl

theorem open_doors_log (e : Elevator) :
    (e.open_doors).log = e.log ++ (if e.doors_opened then [] else [LogEntry.openedDoors]) := by
  by_cases hd : e.doors_opened <;> simp [Elevator.open_doors, hd]

/-- Claim C2: `board(p)` appends `p` to the onboard set exactly when
`p.start_floor` equals the current floor, the car is not at capacity, and
one of the relaxations holds (car direction equals `p`'s, car at floor 0,
car at the top floor, or the current leg target equals this floor); every
such successful boarding opens the doors, marks `p.in_elevator`,
decrements the start floor's waiting-call counter by one, and appends an
"entered" entry (preceded by "Opened doors" when they were closed) to the
log. -/
theorem claim2 (e : Elevator) (p : Passenger)
    (hlen : e.floor_population.length = e.max_floor)
    (hsf : p.start_floor < e.max_floor) :
    (((e.onboard p).1.elevator_population
        = e.elevator_population ++ [{ p with in_elevator := true }])
      ↔ ((p.start_floor : Int) = e.floor ∧ e.elevator_population.length ≠ e.capacity
          ∧ (e.direction = p.direction ∨ e.floor = 0 ∨ e.floor = (e.max_floor : Int) - 1
              ∨ e.floor = e.target_floor)))
    ∧ (((p.start_floor : Int) = e.floor ∧ e.elevator_population.length ≠ e.capacity
          ∧ (e.direction = p.direction ∨ e.floor = 0 ∨ e.floor = (e.max_floor : Int) - 1
              ∨ e.floor = e.target_floor)) →
        ((e.onboard p).1.doors_opened = true
          ∧ (e.onboard p).2 = { p with in_elevator := true }
          ∧ (e.onboard p).1.floor_population.getD p.start_floor 0
              = e.floor_population.getD p.start_floor 0 - 1
          ∧ (e.onboard p).1.log
              = e.log ++ (if e.doors_opened then [] else [LogEntry.openedDoors])
                  ++ [LogEntry.entered p.start_floor p.target_floor e.floor])) := by
  by_cases h1 : (p.start_floor : Int) = e.floor
  · by_cases h2 : e.is_full
    · have hcap : e.elevator_population.length = e.capacity := by
        simpa [Elevator.is_full] using h2
      have heq : e.onboard p = ({ e with log := e.log ++ [.fullWait p.id] }, p) := by
        unfold Elevator.onboard
        rw [if_neg (by simp [h1]), if_pos h2]
      rw [heq]
      constructor
      · refine iff_of_false ?_ ?_
        · intro hx
          simpa using congrArg List.length hx
        · intro hc
          exact hc.2.1 hcap
      · intro hc
        exact absurd hcap hc.2.1
    · have hncap : e.elevator_population.length ≠ e.capacity := by
        simpa [Elevator.is_full] using h2
      by_cases h3 : e.direction = p.direction ∨ e.floor = 0 ∨ e.floor = (e.max_floor : Int) - 1
          ∨ e.floor = e.target_floor
      · have heq : e.onboard p
            = ({ e.open_doors with
                  elevator_population :=
                    (e.open_doors).elevator_population ++ [{ p with in_elevator := true }]
                  floor_population := (e.open_doors).floor_population.set p.start_floor
                    ((e.open_doors).floor_population.getD p.start_floor 0 - 1)
                  log := (e.open_doors).log
                    ++ [.entered p.start_floor p.target_floor e.floor] },
                { p with in_elevator := true }) := by
          unfold Elevator.onboard
          rw [if_neg (by simp [h1]), if_neg h2, if_pos h3]
        rw [heq]
        constructor
        · exact iff_of_true (by rw [open_doors_population]) ⟨h1, hncap, h3⟩
        · intro hc
          have hl : p.start_floor < (e.open_doors).floor_population.length := by
            rw [open_doors_floor_population, hlen]
            exact hsf
          refine ⟨open_doors_doors e, rfl, ?_, ?_⟩
          · rw [getD_set_self _ _ _ hl, open_doors_floor_population]
          · rw [open_doors_log]
      · have heq : e.onboard p = (e, p) := by
          unfold Elevator.onboard
          rw [if_neg (by simp [h1]), if_neg h2, if_neg h3]
        rw [heq]
        constructor
        · refine iff_of_false ?_ ?_
          · intro hx
            simpa using congrArg List.length hx
          · intro hc
            exact h3 hc.2.2
        · intro hc
          exact absurd hc.2.2 h3
  · have heq : e.onboard p = (e, p) := by
      unfold Elevator.onboard
      rw [if_pos h1]
    rw [heq]
    constructor
    · refine iff_of_false ?_ ?_
      · intro hx
        simpa using congrArg List.length hx
      · intro hc
        exact h1 hc.1
    · intro hc
      exact absurd hc.1 h1

theorem claim2_witness :
    ((Elevator.init 2 1).onboard p2wit).1.doors_opened = true
    ∧ ((Elevator.init 2 1).onboard p2wit).2 = { p2wit with in_elevator := true }
    ∧ ((Elevator.init 2 1).onboard p2wit).1.floor_population.getD p2wit.start_floor 0
        = (Elevator.init 2 1).floor_population.getD p2wit.start_floor 0 - 1
    ∧ ((Elevator.init 2 1).onboard p2wit).1.log
        = (Elevator.init 2 1).log
            ++ (if (Elevator.init 2 1).doors_opened then [] else [LogEntry.openedDoors])
            ++ [LogEntry.entered p2wit.start_floor p2wit.target_floor (Elevator.init 2 1).floor] :=
  (claim2 (Elevator.init 2 1) p2wit (by decide) (by decide)).2 (by decide)

theorem onboard_pop (e : Elevator) (p : Passenger) :
    (e.onboard p).1.floor_population
      = if boardSucceeds e p then
          e.floor_population.set p.start_floor (e.floor_population.getD p.start_floor 0 - 1)
        else e.floor_population := by
  by_cases h1 : (p.start_floor : Int) = e.floor
  · by_cases h2 : e.is_full
    · have hb : boardSucceeds e p = false := by
        simp [boardSucceeds, h2]
      unfold Elevator.onboard
      rw [if_neg (by simp [h1]), if_pos h2, hb]
      simp
    · by_cases h3 : e.direction = p.direction ∨ e.floor = 0 ∨ e.floor = (e.max_floor : Int) - 1
          ∨ e.floor = e.target_floor
      · have hb : boardSucceeds e p = true := by
          simp [boardSucceeds, h1, h2]
          tauto
        unfold Elevator.onboard
        rw [if_neg (by simp [h1]), if_neg h2, if_pos h3, hb]
        simp [open_doors_floor_population]
      · have hb : boardSucceeds e p = false := by
          simp [boardSucceeds]
          intro
          tauto
        unfold Elevator.onboard
        rw [if_neg (by simp [h1]), if_neg h2, if_neg h3, hb]
        simp
  · have hb : boardSucceeds e p = false := by
      simp [boardSucceeds, h1]
    unfold Elevator.onboard
    rw [if_pos h1, hb]
    simp

theorem onboard_max (e : Elevator) (p : Passenger) :
    (e.onboard p).1.max_floor = e.max_floor := by
  unfold Elevator.onboard
  split_ifs <;> first | rfl | exact open_doors_max e

theorem remove_elevator_pop (e : Elevator) (p : Passenger) :
    (match e.removePassenger p with
     | .ok e1 _ => e1
     | .missing e1 _ => e1).floor_population = e.floor_population := by
  unfold Elevator.removePassenger
  by_cases ht : (p.target_floor : Int) ≠ e.floor
  · rw [if_pos ht]
  · rw [if_neg ht]
    dsimp only
    by_cases hm : (e.open_doors.elevator_population.any fun q => q.id == p.id) = true
    · rw [if_pos hm]
      exact open_doors_floor_population e
    · rw [if_neg hm]
      exact open_doors_floor_population e

theorem remove_elevator_max (e : Elevator) (p : Passenger) :
    (match e.removePassenger p with
     | .ok e1 _ => e1
     | .missing e1 _ => e1).max_floor = e.max_floor := by
  unfold Elevator.removePassenger
  by_cases ht : (p.target_floor : Int) ≠ e.floor
  · rw [if_pos ht]
  · rw [if_neg ht]
    dsimp only
    by_cases hm : (e.open_doors.elevator_population.any fun q => q.id == p.id) = true
    · rw [if_pos hm]
      exact open_doors_max e
    · rw [if_neg hm]
      exact open_doors_max e

theorem applyOp_pop (e : Elevator) (op : ElevatorOp) :
    (applyOp e op).floor_population
      = match op with
        | .registerCall g =>
            e.floor_population.set g (e.floor_population.getD g 0 + 1)
        | .boardOp p =>
            if boardSucceeds e p then
              e.floor_population.set p.start_floor (e.floor_population.getD p.start_floor 0 - 1)
            else e.floor_population
        | .exitOp _ => e.floor_population
        | .stepOp => e.floor_population := by
  rcases op with g | p | p | _
  · rfl
  · exact onboard_pop e p
  · exact remove_elevator_pop e p
  · unfold applyOp
    cases h : e.move with
    | error msg => rfl
    | ok e1 =>
      dsimp
      exact (move_ok_fields e e1 h).2.2.2.2.2.2.1

theorem applyOp_max (e : Elevator) (op : ElevatorOp) :
    (applyOp e op).max_floor = e.max_floor := by
  rcases op with g | p | p | _
  · rfl
  · exact onboard_max e p
  · exact remove_elevator_max e p
  · unfold applyOp
    cases h : e.move with
    | error msg => rfl
    | ok e1 =>
      dsimp
      exact (move_ok_fields e e1 h).2.2.2.1

theorem applyOp_pop_length (e : Elevator) (op : ElevatorOp) :
    (applyOp e op).floor_population.length = e.floor_population.length := by
  rw [applyOp_pop]
  rcases op with g | p | p | _
  · simp
  · dsimp only
    split <;> simp
  · rfl
  · rfl

theorem runOps_counter (ops : List ElevatorOp) : ∀ (e : Elevator) (f : Nat),
    f < e.max_floor → e.floor_population.length = e.max_floor →
    (∀ op ∈ ops, op.floorsValid e.max_floor = true) →
    (runOps e ops).floor_population.getD f 0
      = e.floor_population.getD f 0 + (regsAt ops f : Int) - (succBoardsAt e ops f : Int) := by
  induction ops with
  | nil =>
    intro e f hf hlen hv
    simp [runOps, regsAt, succBoardsAt]
  | cons op rest ih =>
    intro e f hf hlen hv
    have hv1 : op.floorsValid e.max_floor = true := hv op (List.mem_cons_self op rest)
    have hvr : ∀ o ∈ rest, o.floorsValid (applyOp e op).max_floor = true := by
      rw [applyOp_max]
      exact fun o ho => hv o (List.mem_cons_of_mem op ho)
    have hf' : f < (applyOp e op).max_floor := by
      rw [applyOp_max]
      exact hf
    have hlen' : (applyOp e op).floor_population.length = (applyOp e op).max_floor := by
      rw [applyOp_pop_length, applyOp_max]
      exact hlen
    have hrec := ih (applyOp e op) f hf' hlen' hvr
    have hcons : runOps e (op :: rest) = runOps (applyOp e op) rest := rfl
    rw [hcons, hrec]
    rcases op with g | p | p | _
    · have hg : g < e.floor_population.length := by
        rw [hlen]
        simpa [ElevatorOp.floorsValid] using hv1
      have hregs : regsAt (ElevatorOp.registerCall g :: rest) f
          = (if g = f then 1 else 0) + regsAt rest f := by
        simp [regsAt, List.countP_cons]
        split_ifs <;> simp_all <;> omega
      have hsucc : succBoardsAt e (ElevatorOp.registerCall g :: rest) f
          = succBoardsAt (applyOp e (ElevatorOp.registerCall g)) rest f := by
        simp [succBoardsAt]
      rw [hregs, hsucc]
      by_cases hgf : g = f
      · subst hgf
        have hpop : (applyOp e (ElevatorOp.registerCall g)).floor_population.getD g 0
            = e.floor_population.getD g 0 + 1 := by
          rw [applyOp_pop]
          exact getD_set_self _ _ _ hg
        rw [hpop, if_pos rfl]
        push_cast
        ring
      · have hpop : (applyOp e (ElevatorOp.registerCall g)).floor_population.getD f 0
            = e.floor_population.getD f 0 := by
          rw [applyOp_pop]
          exact getD_set_other _ _ _ _ hgf
        rw [hpop, if_neg hgf]
        push_cast
        ring
    · have hs : p.start_floor < e.floor_population.length := by
        rw [hlen]
        simpa [ElevatorOp.floorsValid] using hv1
      have hregs : regsAt (ElevatorOp.boardOp p :: rest) f = regsAt rest f := by
        simp [regsAt, List.countP_cons]
      have hsucc : succBoardsAt e (ElevatorOp.boardOp p :: rest) f
          = (if boardSucceeds e p && (p.start_floor == f) then 1 else 0)
            + succBoardsAt (applyOp e (ElevatorOp.boardOp p)) rest f := rfl
      rw [hregs, hsucc]
      by_cases hb : boardSucceeds e p = true
      · by_cases hpf : p.start_floor = f
        · subst hpf
          have hpop : (applyOp e (ElevatorOp.boardOp p)).floor_population.getD p.start_floor 0
              = e.floor_population.getD p.start_floor 0 - 1 := by
            rw [applyOp_pop]
            dsimp only
            rw [if_pos hb]
            exact getD_set_self _ _ _ hs
          have hind : (if boardSucceeds e p && (p.start_floor == p.start_floor) then 1 else 0)
              = 1 := by
            simp [hb]
          rw [hpop, hind]
          push_cast
          ring
        · have hpop : (applyOp e (ElevatorOp.boardOp p)).floor_population.getD f 0
              = e.floor_population.getD f 0 := by
            rw [applyOp_pop]
            dsimp only
            rw [if_pos hb]
            exact getD_set_other _ _ _ _ hpf
          have hind : (if boardSucceeds e p && (p.start_floor == f) then 1 else 0) = 0 := by
            simp [hpf]
          rw [hpop, hind]
          push_cast
          ring
      · have hbf : boardSucceeds e p = false := by
          simpa using hb
        have hpop : (applyOp e (ElevatorOp.boardOp p)).floor_population.getD f 0
            = e.floor_population.getD f 0 := by
          rw [applyOp_pop]
          dsimp only
          rw [if_neg hb]
        have hind : (if boardSucceeds e p && (p.start_floor == f) then 1 else 0) = 0 := by
          simp [hbf]
        rw [hpop, hind]
        push_cast
        ring
    · have hregs : regsAt (ElevatorOp.exitOp p :: rest) f = regsAt rest f := by
        simp [regsAt, List.countP_cons]
      have hsucc : succBoardsAt e (ElevatorOp.exitOp p :: rest) f
          = succBoardsAt (applyOp e (ElevatorOp.exitOp p)) rest f := by
        simp [succBoardsAt]
      have hpop : (applyOp e (ElevatorOp.exitOp p)).floor_population.getD f 0
          = e.floor_population.getD f 0 := by
        rw [applyOp_pop]
      rw [hregs, hsucc, hpop]
    · have hregs : regsAt (ElevatorOp.stepOp :: rest) f = regsAt rest f := by
        simp [regsAt, List.countP_cons]
      have hsucc : succBoardsAt e (ElevatorOp.stepOp :: rest) f
          = succBoardsAt (applyOp e ElevatorOp.stepOp) rest f := by
        simp [succBoardsAt]
      have hpop : (applyOp e ElevatorOp.stepOp).floor_population.getD f 0
          = e.floor_population.getD f 0 := by
        rw [applyOp_pop]
      rw [hregs, hsucc, hpop]

/-- Claim C10: every successful boarding decrements the start floor's
waiting-call counter by exactly one, unconditionally, and no operation
bounds the counter below by zero: along any public-operation trace from a
fresh elevator, the counter of floor `f` equals (registered calls at `f`)
minus (successful boardings from `f`), hence it stays non-negative at
every prefix provided the boardings never outrun the prior registrations;
boarding a passenger whose call was never registered drives the counter
to `-1`. -/
theorem claim10 :
    (∀ (e : Elevator) (p : Passenger), boardSucceeds e p = true →
        p.start_floor < e.floor_population.length →
        (e.onboard p).1.floor_population.getD p.start_floor 0
          = e.floor_population.getD p.start_floor 0 - 1)
    ∧ (∀ (m c : Nat) (ops : List ElevatorOp) (f : Nat), f < m →
        (∀ op ∈ ops, op.floorsValid m = true) →
        (∀ n : Nat, succBoardsAt (Elevator.init m c) (ops.take n) f
            ≤ regsAt (ops.take n) f) →
        ∀ n : Nat,
          0 ≤ (runOps (Elevator.init m c) (ops.take n)).floor_population.getD f 0)
    ∧ (runOps (Elevator.init 2 6) [.boardOp p10wit]).floor_population.getD 0 0 = -1 := by
  refine ⟨?_, ?_, by decide⟩
  · intro e p hb hlt
    rw [onboard_pop, if_pos hb]
    exact getD_set_self _ _ _ hlt
  · intro m c ops f hf hv hdisc n
    have hv' : ∀ op ∈ ops.take n, op.floorsValid (Elevator.init m c).max_floor = true :=
      fun op ho => hv op (List.mem_of_mem_take ho)
    have hlen : (Elevator.init m c).floor_population.length = (Elevator.init m c).max_floor := by
      simp [Elevator.init]
    have heq := runOps_counter (ops.take n) (Elevator.init m c) f hf hlen hv'
    have hz : (Elevator.init m c).floor_population.getD f 0 = 0 :=
      getD_replicate_zero m f
    have hd := hdisc n
    rw [heq, hz]
    omega

theorem claim10_witness :
    ((Elevator.init 2 6).onboard p10wit).1.floor_population.getD p10wit.start_floor 0
      = (Elevator.init 2 6).floor_population.getD p10wit.start_floor 0 - 1
    ∧ 0 ≤ (runOps (Elevator.init 2 6)
        (([ElevatorOp.registerCall 0, ElevatorOp.boardOp p10wit]).take 2)).floor_population.getD 0 0 :=
  ⟨claim10.1 (Elevator.init 2 6) p10wit (by decide) (by decide),
   claim10.2.1 2 6 [ElevatorOp.registerCall 0, ElevatorOp.boardOp p10wit] 0 (by decide)
     (by decide)
     (by
       intro n
       rcases n with _ | _ | n
       · decide
       · decide
       · simp only [List.take_succ_cons, List.take_nil]
         decide) 2⟩

theorem countP_append_one (l : List LogEntry) (x : LogEntry) (q : LogEntry → Bool) :
    (l ++ [x]).countP q = l.countP q + (if q x then 1 else 0) := by
  simp [List.countP_append, List.countP_cons]

theorem waitingAt_cons (q : Passenger) (l : List Passenger) (g : Nat) :
    waitingAt (q :: l) g = waitingAt [q] g + waitingAt l g := by
  simp [waitingAt, List.countP_cons]
  omega

theorem sum_nonneg_of_getD (l : List Int) (h : ∀ f, 0 ≤ l.getD f 0) : 0 ≤ l.sum := by
  induction l with
  | nil => simp
  | cons x xs ih =>
    have hx : (0 : Int) ≤ x := by simpa [List.getD] using h 0
    have hxs : ∀ f, 0 ≤ xs.getD f 0 := by
      intro f
      simpa [List.getD] using h (f + 1)
    have := ih hxs
    simp only [List.sum_cons]
    omega

theorem eraseById_length (l : List Passenger) (i : Nat)
    (h : (l.any fun q => q.id == i) = true) :
    (eraseById l i).length + 1 = l.length := by
  induction l with
  | nil => simp at h
  | cons q rest ih =>
    by_cases hq : q.id = i
    · simp [eraseById, hq]
    · have hrest : (rest.any fun r => r.id == i) = true := by
        simpa [hq] using h
      simp only [eraseById, if_neg hq, List.length_cons]
      rw [← ih hrest]

theorem open_doors_counts (e : Elevator) (h : SimCounts e) : SimCounts e.open_doors := by
  obtain ⟨h1, h2⟩ := h
  by_cases hd : e.doors_opened <;>
    simp_all [SimCounts, Elevator.open_doors, countP_append_one, isEnteredL, isExitedL,
      isOpenedL, isClosedL]

theorem close_doors_counts (e : Elevator) (h : SimCounts e) :
    SimCounts e.close_doors ∧ (e.close_doors).doors_opened = false := by
  obtain ⟨h1, h2⟩ := h
  by_cases hd : e.doors_opened <;>
    simp_all [SimCounts, Elevator.close_doors, countP_append_one, isEnteredL, isExitedL,
      isOpenedL, isClosedL]

theorem onboard_snd (e : Elevator) (p : Passenger) :
    (e.onboard p).2 = if boardSucceeds e p then { p with in_elevator := true } else p := by
  by_cases h1 : (p.start_floor : Int) = e.floor
  · by_cases h2 : e.is_full
    · have hb : boardSucceeds e p = false := by
        simp [boardSucceeds, h2]
      unfold Elevator.onboard
      rw [if_neg (by simp [h1]), if_pos h2, hb]
      simp
    · by_cases h3 : e.direction = p.direction ∨ e.floor = 0 ∨ e.floor = (e.max_floor : Int) - 1
          ∨ e.floor = e.target_floor
      · have hb : boardSucceeds e p = true := by
          simp [boardSucceeds, h1, h2]
          tauto
        unfold Elevator.onboard
        rw [if_neg (by simp [h1]), if_neg h2, if_pos h3, hb]
        simp
      · have hb : boardSucceeds e p = false := by
          simp [boardSucceeds]
          intro
          tauto
        unfold Elevator.onboard
        rw [if_neg (by simp [h1]), if_neg h2, if_neg h3, hb]
        simp
  · have hb : boardSucceeds e p = false := by
      simp [boardSucceeds, h1]
    unfold Elevator.onboard
    rw [if_pos h1, hb]
    simp

theorem onboard_pop_length (e : Elevator) (p : Passenger) :
    (e.onboard p).1.floor_population.length = e.floor_population.length := by
  rw [onboard_pop]
  split <;> simp

theorem onboard_counts (e : Elevator) (p : Passenger) (h : SimCounts e) :
    SimCounts (e.onboard p).1 := by
  by_cases h1 : (p.start_floor : Int) = e.floor
  · by_cases h2 : e.is_full
    · obtain ⟨h1c, h2c⟩ := h
      unfold Elevator.onboard
      rw [if_neg (by simp [h1]), if_pos h2]
      constructor
      · simpa [countP_append_one, isEnteredL, isExitedL] using h1c
      · simpa [countP_append_one, isOpenedL, isClosedL] using h2c
    · by_cases h3 : e.direction = p.direction ∨ e.floor = 0 ∨ e.floor = (e.max_floor : Int) - 1
          ∨ e.floor = e.target_floor
      · obtain ⟨o1, o2⟩ := open_doors_counts e h
        have hod : (e.open_doors).doors_opened = true := open_doors_doors e
        unfold Elevator.onboard
        rw [if_neg (by simp [h1]), if_neg h2, if_pos h3]
        constructor
        · simp only [countP_append_one, List.length_append]
          simp [isEnteredL, isExitedL]
          omega
        · simp only [countP_append_one]
          simp [isOpenedL, isClosedL, hod] at o2 ⊢
          omega
      · unfold Elevator.onboard
        rw [if_neg (by simp [h1]), if_neg h2, if_neg h3]
        exact h
  · unfold Elevator.onboard
    rw [if_pos h1]
    exact h

theorem remove_ok_cases (e : Elevator) (p : Passenger) (e1 : Elevator) (p1 : Passenger)
    (h : e.removePassenger p = .ok e1 p1) :
    (e1 = e ∧ p1 = p)
    ∨ ((e.open_doors.elevator_population.any fun q => q.id == p.id) = true
        ∧ e1 = { e.open_doors with
                  elevator_population := eraseById e.open_doors.elevator_population p.id
                  log := e.open_doors.log ++ [.exited p.start_floor p.target_floor e.floor] }
        ∧ p1 = { p with in_elevator := false, finished := true }) := by
  unfold Elevator.removePassenger at h
  by_cases ht : (p.target_floor : Int) ≠ e.floor
  · rw [if_pos ht] at h
    injection h with ha hb
    exact Or.inl ⟨ha.symm, hb.symm⟩
  · rw [if_neg ht] at h
    dsimp only at h
    by_cases hm : (e.open_doors.elevator_population.any fun q => q.id == p.id) = true
    · rw [if_pos hm] at h
      injection h with ha hb
      exact Or.inr ⟨hm, ha.symm, hb.symm⟩
    · rw [if_neg hm] at h
      cases h

theorem remove_ok_counts (e : Elevator) (p : Passenger) (e1 : Elevator) (p1 : Passenger)
    (h : e.removePassenger p = .ok e1 p1) (hc : SimCounts e) : SimCounts e1 := by
  rcases remove_ok_cases e p e1 p1 h with ⟨he, -⟩ | ⟨hm, he, -⟩
  · rw [he]
    exact hc
  · obtain ⟨o1, o2⟩ := open_doors_counts e hc
    have hlen := eraseById_length _ _ hm
    rw [he]
    constructor
    · simp only [countP_append_one]
      simp [isEnteredL, isExitedL]
      omega
    · simpa [countP_append_one, isOpenedL, isClosedL] using o2

theorem remove_ok_pop (e : Elevator) (p : Passenger) (e1 : Elevator) (p1 : Passenger)
    (h : e.removePassenger p = .ok e1 p1) :
    e1.floor_population = e.floor_population := by
  rcases remove_ok_cases e p e1 p1 h with ⟨he, -⟩ | ⟨-, he, -⟩
  · rw [he]
  · rw [he]
    exact open_doors_floor_population e

theorem remove_ok_max (e : Elevator) (p : Passenger) (e1 : Elevator) (p1 : Passenger)
    (h : e.removePassenger p = .ok e1 p1) :
    e1.max_floor = e.max_floor := by
  rcases remove_ok_cases e p e1 p1 h with ⟨he, -⟩ | ⟨-, he, -⟩
  · rw [he]
  · rw [he]
    exact open_doors_max e

theorem move_log (e e1 : Elevator) (h : e.move = .ok e1) :
    e1.log = e.log ++ (if e.doors_opened then [LogEntry.closedDoors] else [])
      ++ [.moving e1.direction e1.floor] := by
  unfold Elevator.move at h
  by_cases hd1 : e.demandFloors.isEmpty
  · rw [if_pos hd1] at h
    cases h
  · rw [if_neg hd1] at h
    by_cases h2 : e.scanTarget.1 ≤ -1 ∨ (e.max_floor : Int) ≤ e.scanTarget.1
    · rw [if_pos h2] at h
      cases h
    · rw [if_neg h2] at h
      have hX := Except.ok.inj h
      subst hX
      unfold Elevator.close_doors
      by_cases hd : e.doors_opened <;> simp [hd]

theorem move_counts (e e1 : Elevator) (h : e.move = .ok e1) (hc : SimCounts e) :
    SimCounts e1 := by
  obtain ⟨c1, c2⟩ := hc
  obtain ⟨-, -, -, -, -, hpass, -, hdo, -, -, -⟩ := move_ok_fields e e1 h
  have hlog := move_log e e1 h
  constructor
  · rw [hlog, hpass]
    by_cases hd : e.doors_opened <;>
      simp [hd, List.countP_append, List.countP_cons, isEnteredL, isExitedL, c1]
  · rw [hlog, hdo]
    by_cases hd : e.doors_opened <;>
      simp [hd, List.countP_append, List.countP_cons, isOpenedL, isClosedL] <;>
      simp [hd] at c2 <;>
      omega

theorem onboard_popmatch (e : Elevator) (p : Passenger) (extra : Nat → Nat)
    (rest : List Passenger)
    (hlen : e.floor_population.length = e.max_floor)
    (hval : p.start_floor < e.max_floor)
    (hw : p.waiting = true)
    (hpm : PopMatch e extra (p :: rest)) :
    PopMatch (e.onboard p).1 (fun f => extra f + waitingAt [(e.onboard p).2] f) rest := by
  intro f
  dsimp only
  have h0 := hpm f
  rw [waitingAt_cons] at h0
  rw [onboard_pop, onboard_snd]
  by_cases hb : boardSucceeds e p = true
  · rw [if_pos hb, if_pos hb]
    have hip2 : waitingAt [{ p with in_elevator := true }] f = 0 := by
      simp [waitingAt, Passenger.waiting]
    by_cases hf : p.start_floor = f
    · subst hf
      have hip : waitingAt [p] p.start_floor = 1 := by
        simp [waitingAt, hw]
      rw [getD_set_self _ _ _ (by rw [hlen]; exact hval), h0, hip, hip2]
      push_cast
      ring
    · have hip : waitingAt [p] f = 0 := by
        simp [waitingAt, hw, hf]
      rw [getD_set_other _ _ _ _ hf, h0, hip, hip2]
      push_cast
      ring
  · rw [if_neg hb, if_neg hb]
    rw [h0]
    push_cast
    ring

theorem tickPassengers_inv : ∀ (ps : List Passenger) (e : Elevator) (extra : Nat → Nat)
    (e' : Elevator) (ps' : List Passenger),
    tickPassengers e ps = .ok (e', ps') →
    e.floor_population.length = e.max_floor →
    PopMatch e extra ps →
    StartsValid e.max_floor ps →
    SimCounts e →
    (e'.max_floor = e.max_floor
      ∧ e'.floor_population.length = e'.max_floor
      ∧ PopMatch e' extra ps'
      ∧ StartsValid e'.max_floor ps'
      ∧ SimCounts e') := by
  intro ps
  induction ps with
  | nil =>
    intro e extra e' ps' h hlen hpm hsv hc
    unfold tickPassengers at h
    injection h with hx
    injection hx with he hps
    subst he
    subst hps
    exact ⟨rfl, hlen, hpm, hsv, hc⟩
  | cons p rest ih =>
    intro e extra e' ps' h hlen hpm hsv hc
    unfold tickPassengers at h
    by_cases hg : (p.in_elevator && p.arrived e.floor) = true
    · rw [if_pos hg] at h
      cases hrem : e.removePassenger p with
      | missing e1 p1 =>
        rw [hrem] at h
        cases h
      | ok e1 p1 =>
        rw [hrem] at h
        dsimp only at h
        have hg' : p.in_elevator = true ∧ p.arrived e.floor = true := by
          simpa using hg
        have hpw : p.waiting = false := by
          simp [Passenger.waiting, hg'.1]
        have hp1w : p1.waiting = false := by
          rcases remove_ok_cases e p e1 p1 hrem with ⟨-, hp⟩ | ⟨-, -, hp⟩
          · rw [hp]
            exact hpw
          · rw [hp]
            simp [Passenger.waiting]
        rw [if_neg (by simp [hp1w])] at h
        dsimp only at h
        cases htick : tickPassengers e1 rest with
        | error msg =>
          rw [htick] at h
          cases h
        | ok pr =>
          obtain ⟨e3, rest'⟩ := pr
          rw [htick] at h
          dsimp only at h
          injection h with hx
          injection hx with he3 hps
          subst he3
          subst hps
          have hp1start : p1.start_floor = p.start_floor := by
            rcases remove_ok_cases e p e1 p1 hrem with ⟨-, hp⟩ | ⟨-, -, hp⟩ <;> rw [hp]
          have hpop1 : e1.floor_population = e.floor_population := remove_ok_pop _ _ _ _ hrem
          have hmax1 : e1.max_floor = e.max_floor := remove_ok_max _ _ _ _ hrem
          have hc1 : SimCounts e1 := remove_ok_counts _ _ _ _ hrem hc
          have hlen1 : e1.floor_population.length = e1.max_floor := by
            rw [hpop1, hmax1]
            exact hlen
          have hpm1 : PopMatch e1 (fun f => extra f + waitingAt [p1] f) rest := by
            intro f
            dsimp only
            have h0 := hpm f
            rw [waitingAt_cons] at h0
            have hip : waitingAt [p] f = 0 := by simp [waitingAt, hpw]
            have hip1 : waitingAt [p1] f = 0 := by simp [waitingAt, hp1w]
            rw [hpop1, h0, hip, hip1]
            push_cast
            ring
          have hsv1 : StartsValid e1.max_floor rest := by
            rw [hmax1]
            exact fun q hq => hsv q (List.mem_cons_of_mem p hq)
          obtain ⟨m3, l3, pm3, sv3, c3⟩ := ih e1 (fun f => extra f + waitingAt [p1] f)
            e3 rest' htick hlen1 hpm1 hsv1 hc1
          refine ⟨m3.trans hmax1, l3, ?_, ?_, c3⟩
          · intro f
            have h3 := pm3 f
            dsimp only at h3
            rw [waitingAt_cons, h3]
            push_cast
            ring
          · intro q hq
            rcases List.mem_cons.mp hq with hq1 | hq2
            · subst hq1
              rw [m3.trans hmax1, hp1start]
              exact hsv p (List.mem_cons_self p rest)
            · exact sv3 q hq2
    · rw [if_neg hg] at h
      dsimp only at h
      by_cases hw : p.waiting = true
      · rw [if_pos hw] at h
        cases htick : tickPassengers (e.onboard p).1 rest with
        | error msg =>
          rw [htick] at h
          cases h
        | ok pr =>
          obtain ⟨e3, rest'⟩ := pr
          rw [htick] at h
          dsimp only at h
          injection h with hx
          injection hx with he3 hps
          subst he3
          subst hps
          have hval : p.start_floor < e.max_floor := hsv p (List.mem_cons_self p rest)
          have hpm2 := onboard_popmatch e p extra rest hlen hval hw hpm
          have hmax2 : (e.onboard p).1.max_floor = e.max_floor := onboard_max e p
          have hlen2 : (e.onboard p).1.floor_population.length
              = (e.onboard p).1.max_floor := by
            rw [onboard_pop_length, hmax2]
            exact hlen
          have hc2 : SimCounts (e.onboard p).1 := onboard_counts e p hc
          have hsv2 : StartsValid (e.onboard p).1.max_floor rest := by
            rw [hmax2]
            exact fun q hq => hsv q (List.mem_cons_of_mem p hq)
          obtain ⟨m3, l3, pm3, sv3, c3⟩ := ih (e.onboard p).1
            (fun f => extra f + waitingAt [(e.onboard p).2] f) e3 rest' htick hlen2 hpm2 hsv2 hc2
          refine ⟨m3.trans hmax2, l3, ?_, ?_, c3⟩
          · intro f
            have h3 := pm3 f
            dsimp only at h3
            rw [waitingAt_cons, h3]
            push_cast
            ring
          · intro q hq
            rcases List.mem_cons.mp hq with hq1 | hq2
            · subst hq1
              have hqs : (e.onboard p).2.start_floor = p.start_floor := by
                rw [onboard_snd]
                split <;> rfl
              rw [m3.trans hmax2, hqs]
              exact hval
            · exact sv3 q hq2
      · rw [if_neg hw] at h
        dsimp only at h
        cases htick : tickPassengers e rest with
        | error msg =>
          rw [htick] at h
          cases h
        | ok pr =>
          obtain ⟨e3, rest'⟩ := pr
          rw [htick] at h
          dsimp only at h
          injection h with hx
          injection hx with he3 hps
          subst he3
          subst hps
          have hpm1 : PopMatch e (fun f => extra f + waitingAt [p] f) rest := by
            intro f
            dsimp only
            have h0 := hpm f
            rw [waitingAt_cons] at h0
            rw [h0]
            push_cast
            ring
          obtain ⟨m3, l3, pm3, sv3, c3⟩ := ih e (fun f => extra f + waitingAt [p] f)
            e3 rest' htick hlen hpm1 (fun q hq => hsv q (List.mem_cons_of_mem p hq)) hc
          refine ⟨m3, l3, ?_, ?_, c3⟩
          · intro f
            have h3 := pm3 f
            dsimp only at h3
            rw [waitingAt_cons, h3]
            push_cast
            ring
          · intro q hq
            rcases List.mem_cons.mp hq with hq1 | hq2
            · subst hq1
              rw [m3]
              exact hsv q (List.mem_cons_self q rest)
            · exact sv3 q hq2

theorem close_doors_population (e : Elevator) :
    (e.close_doors).elevator_population = e.elevator_population := by
  unfold Elevator.close_doors; split <;> rfl

theorem pending_len_zero (e : Elevator) (ps : List Passenger)
    (hpm : PopMatch e (fun _ => 0) ps) (hp : e.pendingTotal ≤ 0) :
    e.elevator_population.length = 0 := by
  have hsum : 0 ≤ e.floor_population.sum := by
    apply sum_nonneg_of_getD
    intro f
    rw [hpm f]
    positivity
  unfold Elevator.pendingTotal at hp
  omega

theorem runLoop_exit_counts (e : Elevator) (ps : List Passenger)
    (hpm : PopMatch e (fun _ => 0) ps) (hc : SimCounts e)
    (hdoor : e.doors_opened = false) (hp : e.pendingTotal ≤ 0) :
    e.log.countP isEnteredL = e.log.countP isExitedL
    ∧ e.log.countP isOpenedL = e.log.countP isClosedL := by
  have hlen0 := pending_len_zero e ps hpm hp
  obtain ⟨c1, c2⟩ := hc
  rw [hlen0] at c1
  rw [hdoor] at c2
  constructor
  · simpa using c1
  · simpa using c2

theorem runLoop_counts : ∀ (fuel : Nat) (e : Elevator) (ps : List Passenger) (e1 : Elevator),
    runLoop fuel e ps = some (.ok e1) →
    e.doors_opened = false →
    e.floor_population.length = e.max_floor →
    PopMatch e (fun _ => 0) ps →
    StartsValid e.max_floor ps →
    SimCounts e →
    (e1.log.countP isEnteredL = e1.log.countP isExitedL
      ∧ e1.log.countP isOpenedL = e1.log.countP isClosedL) := by
  intro fuel
  induction fuel with
  | zero =>
    intro e ps e1 h hdoor hlen hpm hsv hc
    unfold runLoop at h
    by_cases hp : e.pendingTotal ≤ 0
    · rw [if_pos hp] at h
      injection h with hx
      injection hx with he
      subst he
      exact runLoop_exit_counts e ps hpm hc hdoor hp
    · rw [if_neg hp] at h
      cases h
  | succ fuel ih =>
    intro e ps e1 h hdoor hlen hpm hsv hc
    unfold runLoop at h
    by_cases hp : e.pendingTotal ≤ 0
    · rw [if_pos hp] at h
      injection h with hx
      injection hx with he
      subst he
      exact runLoop_exit_counts e ps hpm hc hdoor hp
    · rw [if_neg hp] at h
      dsimp only at h
      cases htick : tickPassengers e ps with
      | error msg =>
        rw [htick] at h
        injection h with hx
        cases hx
      | ok pr =>
        obtain ⟨e2, ps2⟩ := pr
        rw [htick] at h
        dsimp only at h
        obtain ⟨m2, l2, pm2, sv2, c2⟩ :=
          tickPassengers_inv ps e (fun _ => 0) e2 ps2 htick hlen hpm hsv hc
        by_cases hz : e2.pendingTotal = 0
        · rw [if_pos hz] at h
          injection h with hx
          injection hx with he
          subst he
          have hlen0 : e2.elevator_population.length = 0 :=
            pending_len_zero e2 ps2 pm2 (le_of_eq hz)
          obtain ⟨cc, cd⟩ := close_doors_counts e2 c2
          obtain ⟨cc1, cc2⟩ := cc
          rw [close_doors_population, hlen0] at cc1
          rw [cd] at cc2
          constructor
          · simpa using cc1
          · simpa using cc2
        · rw [if_neg hz] at h
          cases hmv : e2.move with
          | error msg =>
            rw [hmv] at h
            injection h with hx
            cases hx
          | ok e3 =>
            rw [hmv] at h
            have hc3 : SimCounts e3 := move_counts e2 e3 hmv c2
            obtain ⟨-, -, -, hmax3, -, -, hpop3, hdo3, -, -, -⟩ := move_ok_fields e2 e3 hmv
            refine ih e3 ps2 e1 h hdo3 ?_ ?_ ?_ hc3
            · rw [hpop3, hmax3]
              exact l2
            · intro f
              rw [hpop3]
              exact pm2 f
            · rw [hmax3]
              exact sv2

theorem generate_inv : ∀ (draws : List (Nat × Nat)) (pid : Nat) (e : Elevator)
    (ps : List Passenger) (e' : Elevator) (extra : Nat → Nat),
    generatePassengers draws pid e = .ok (ps, e') →
    (∀ d ∈ draws, d.1 < e.max_floor) →
    e.floor_population.length = e.max_floor →
    (∀ f, e.floor_population.getD f 0 = (extra f : Int)) →
    (e'.max_floor = e.max_floor
      ∧ e'.floor_population.length = e'.max_floor
      ∧ PopMatch e' extra ps
      ∧ StartsValid e'.max_floor ps
      ∧ e'.elevator_population = e.elevator_population
      ∧ e'.log = e.log
      ∧ e'.doors_opened = e.doors_opened) := by
  intro draws
  induction draws with
  | nil =>
    intro pid e ps e' extra h hv hlen hx
    unfold generatePassengers at h
    injection h with hx2
    injection hx2 with hps he
    subst hps
    subst he
    refine ⟨rfl, hlen, ?_, ?_, rfl, rfl, rfl⟩
    · intro f
      rw [hx f]
      simp [waitingAt]
    · intro q hq
      cases hq
  | cons d rest ihd =>
    obtain ⟨s, t⟩ := d
    intro pid e ps e' extra h hv hlen hx
    unfold generatePassengers at h
    cases hmk : Passenger.make e.max_floor pid s t with
    | error msg =>
      rw [hmk] at h
      cases h
    | ok p =>
      rw [hmk] at h
      dsimp only at h
      cases hgen : generatePassengers rest (pid + 1) (e.call_elevator p.start_floor) with
      | error msg =>
        rw [hgen] at h
        cases h
      | ok pr =>
        obtain ⟨psr, e2⟩ := pr
        rw [hgen] at h
        dsimp only at h
        injection h with hx2
        injection hx2 with hps he
        subst hps
        subst he
        have hs : s < e.max_floor := hv (s, t) (List.mem_cons_self _ _)
        have hp : p.start_floor = s ∧ p.waiting = true := by
          unfold Passenger.make at hmk
          by_cases h2 : e.max_floor < 2
          · rw [if_pos h2] at hmk
            cases hmk
          · rw [if_neg h2] at hmk
            have := Except.ok.inj hmk
            rw [← this]
            exact ⟨rfl, rfl⟩
        have hstart : p.start_floor = s := hp.1
        have hpw : p.waiting = true := hp.2
        have hcall_max : (e.call_elevator p.start_floor).max_floor = e.max_floor := rfl
        have hcall_len : (e.call_elevator p.start_floor).floor_population.length
            = (e.call_elevator p.start_floor).max_floor := by
          simp [Elevator.call_elevator]
          exact hlen
        have hslen : p.start_floor < e.floor_population.length := by
          rw [hlen, hstart]
          exact hs
        have hcall_getD : ∀ f, (e.call_elevator p.start_floor).floor_population.getD f 0
            = ((extra f + waitingAt [p] f : Nat) : Int) := by
          intro f
          by_cases hf : p.start_floor = f
          · subst hf
            have hip : waitingAt [p] p.start_floor = 1 := by
              simp [waitingAt, hpw]
            unfold Elevator.call_elevator
            dsimp only
            rw [getD_set_self _ _ _ hslen, hx p.start_floor, hip]
            push_cast
            ring
          · have hip : waitingAt [p] f = 0 := by
              simp [waitingAt, hpw, hf]
            unfold Elevator.call_elevator
            dsimp only
            rw [getD_set_other _ _ _ _ hf, hx f, hip]
            push_cast
            ring
        obtain ⟨gm, gl, gpm, gsv, gpop, glog, gdoor⟩ :=
          ihd (pid + 1) (e.call_elevator p.start_floor) psr e2
            (fun f => extra f + waitingAt [p] f) hgen
            (fun d hd => hv d (List.mem_cons_of_mem _ hd)) (hcall_len.trans hcall_max)
            hcall_getD
        refine ⟨gm.trans hcall_max, gl, ?_, ?_, gpop, glog, gdoor⟩
        · intro f
          have h3 := gpm f
          dsimp only at h3
          rw [waitingAt_cons, h3]
          push_cast
          ring
        · intro q hq
          rcases List.mem_cons.mp hq with hq1 | hq2
          · subst hq1
            rw [gm.trans hcall_max, hstart]
            exact hs
          · exact gsv q hq2

/-- Claim C7: in every terminating run of the simulation, the final log
contains as many "entered" entries as "exited" entries, and as many
"Opened doors" entries as "Closed doors" entries.  (The draws hypothesis
states what `random.randint`/`random.choice` guarantee: every generated
start and target floor lies in `[0, num_floors - 1]`.) -/
theorem claim7 (draws : List (Nat × Nat)) (floors cap fuel : Nat) (e1 : Elevator)
    (hv : ∀ d ∈ draws, d.1 < floors ∧ d.2 < floors)
    (hrun : simulate_elevator_usage draws floors cap fuel = some (.ok e1)) :
    e1.log.countP isEnteredL = e1.log.countP isExitedL
    ∧ e1.log.countP isOpenedL = e1.log.countP isClosedL := by
  unfold simulate_elevator_usage at hrun
  cases hgen : generatePassengers draws 0 (Elevator.init floors cap) with
  | error msg =>
    rw [hgen] at hrun
    cases hrun
  | ok pr =>
    obtain ⟨ps, e0⟩ := pr
    rw [hgen] at hrun
    dsimp only at hrun
    obtain ⟨gm, gl, gpm, gsv, gpop, glog, gdoor⟩ :=
      generate_inv draws 0 (Elevator.init floors cap) ps e0 (fun _ => 0) hgen
        (fun d hd => (hv d hd).1) (by simp [Elevator.init])
        (fun f => by simpa [Elevator.init] using getD_replicate_zero floors f)
    have hc0 : SimCounts e0 := by
      constructor
      · rw [glog, gpop]
        simp [Elevator.init]
      · rw [glog, gdoor]
        simp [Elevator.init]
    have hdoor0 : e0.doors_opened = false := by
      rw [gdoor]
      rfl
    cases hloop : runLoop fuel e0 ps with
    | none =>
      rw [hloop] at hrun
      cases hrun
    | some r =>
      cases r with
      | error msg =>
        rw [hloop] at hrun
        injection hrun with hx
        cases hx
      | ok e2 =>
        rw [hloop] at hrun
        dsimp only at hrun
        injection hrun with hx
        injection hx with he
        subst he
        have hcounts := runLoop_counts fuel e0 ps e2 hloop hdoor0 gl gpm gsv hc0
        constructor
        · simpa [countP_append_one, isEnteredL, isExitedL] using hcounts.1
        · simpa [countP_append_one, isOpenedL, isClosedL] using hcounts.2

theorem claim7_witness :
    e7wit.log.countP isEnteredL = e7wit.log.countP isExitedL
    ∧ e7wit.log.countP isOpenedL = e7wit.log.countP isClosedL :=
  claim7 [(0, 1)] 2 6 10 e7wit (by decide) (by rfl)
